import Mathlib

/-!
# imageoptim: a verification development of `imageoptim.go`

The Go package is a thin client for an image optimisation HTTP service.  This
file embeds it in Lean:

* Go `string` and `[]byte` values are byte sequences (`List UInt8`); string
  literals of the source are written `lit "..."`, their UTF-8 bytes;
* the standard-library calls of the source (`strings.HasPrefix`,
  `strings.Join`, `fmt.Sprintf`, `filepath.Base`, `mime/multipart`) are
  embedded as functions that follow the library's code on the fragment the
  source uses;
* everything that reaches outside the process (`os.Open`, the random source
  behind `multipart.NewWriter`, `http.NewRequest` validation, `client.Do`) is
  read from a `World`, and every effect is recorded in a trace of `Event`s.
-/

set_option autoImplicit false
set_option maxRecDepth 100000

/-- A Go value that may be `nil`. -/
abbrev Nilable (α : Type) := Option α

namespace ImageOptim

/-! ## Strings and bytes -/

/-- One byte. -/
abbrev Byte := UInt8

/-- A Go `string`: an immutable sequence of bytes. -/
abbrev GoString := List Byte

/-- A Go `[]byte`. -/
abbrev Bytes := List Byte

/-- The bytes of a string literal of the source (Go source text is UTF-8). -/
def lit (s : String) : GoString := s.data.flatMap String.utf8EncodeChar

/-- Go's `strings.HasPrefix`: `len(s) >= len(prefix) && s[:len(prefix)] == prefix`. -/
def HasPrefix (s pre : GoString) : Bool :=
  decide (s.length ≥ pre.length) && (s.take pre.length == pre)

/-- Go's `strings.Join`: nothing for no elements, the element itself for one, and
otherwise the first element followed by separator and element for each of the
rest, in order. -/
def Join (elems : List GoString) (sep : GoString) : GoString :=
  match elems with
  | [] => []
  | [e] => e
  | e :: rest => rest.foldl (fun b s => b ++ sep ++ s) e

/-! ## `fmt` -/

/-- The digit byte of `d < 10`: `byte('0' + d)`. -/
def digitByte (d : Nat) : Byte := UInt8.ofNat (48 + d)

/-- The digit loop of `fmt.fmtInteger` in base 10: digits are produced from the
least significant one and stored right to left, `acc` is the part of the
buffer already filled.  `fuel` bounds the number of iterations. -/
def fmtDigits : Nat → Nat → List Byte → List Byte
  | 0, u, acc => digitByte u :: acc
  | fuel + 1, u, acc =>
    if u ≥ 10 then fmtDigits fuel (u / 10) (digitByte (u - u / 10 * 10) :: acc)
    else digitByte u :: acc

/-- Go's `fmt.fmtInteger` for verb `%d` without flags: the digits of the magnitude,
preceded by `-` for a negative number. -/
def fmtInteger (i : Int) : GoString :=
  let ds := fmtDigits i.natAbs i.natAbs []
  if i < 0 then 45 :: ds else ds

/-- An operand of `fmt.Sprintf`, as far as the source uses them. -/
inductive Arg where
  | int (i : Int)
  | string (s : GoString)

/-- The output of one verb applied to one operand.  `%d` prints an int in
decimal, `%s` a string as it is, `%v` either; a verb that does not fit its
operand prints Go's `%!verb(type=value)` notice. -/
def printArg (verb : Char) (a : Arg) : GoString :=
  match a with
  | .int i =>
    if verb = 'd' ∨ verb = 'v' then fmtInteger i
    else lit "%!" ++ String.utf8EncodeChar verb ++ lit "(int=" ++ fmtInteger i ++ lit ")"
  | .string s =>
    if verb = 's' ∨ verb = 'v' then s
    else lit "%!" ++ String.utf8EncodeChar verb ++ lit "(string=" ++ s ++ lit ")"

/-- The notice for operands left over at the end of the format. -/
def printExtra : List Arg → GoString
  | [] => []
  | a :: rest =>
    lit "%!(EXTRA " ++
      Join ((a :: rest).map (fun x =>
        match x with
        | .int i => lit "int=" ++ fmtInteger i
        | .string s => lit "string=" ++ s)) (lit ", ") ++ lit ")"

/-- The scanning loop of `fmt.Sprintf` for formats whose verbs carry no flags,
width or precision.  The flag is true right after a `%`. -/
def doPrintf : Bool → List Char → List Arg → GoString
  | false, [], args => printExtra args
  | true, [], args => lit "%!(NOVERB)" ++ printExtra args
  | false, c :: cs, args =>
    if c = '%' then doPrintf true cs args
    else String.utf8EncodeChar c ++ doPrintf false cs args
  | true, c :: cs, args =>
    if c = '%' then lit "%" ++ doPrintf false cs args
    else
      match args with
      | [] => lit "%!" ++ String.utf8EncodeChar c ++ lit "(MISSING)" ++ doPrintf false cs []
      | a :: rest => printArg c a ++ doPrintf false cs rest

/-- Go's `fmt.Sprintf`. -/
def Sprintf (format : String) (args : List Arg) : GoString :=
  doPrintf false format.data args

/-! ## The package: options and URLs -/

/-- The source's `type Client struct { apiUser string }`. -/
structure Client where
  apiUser : GoString

/-- The source's `type Option struct { value string }`. -/
structure Option where
  value : GoString

/-- The source's `Full = Option{"full"}`. -/
def Full : Option := ⟨lit "full"⟩

/-- The source's `Fit = Option{"fit"}`. -/
def Fit : Option := ⟨lit "fit"⟩

/-- The source's `ScaleDown = Option{"scale-down"}`. -/
def ScaleDown : Option := ⟨lit "scale-down"⟩

/-- The source's `QualityLow = Option{"quality=low"}`. -/
def QualityLow : Option := ⟨lit "quality=low"⟩

/-- The source's `NewClient`: it stores the identity as given. -/
def NewClient (apiUser : GoString) : Client := ⟨apiUser⟩

/-- The source's `WidthxHeight(width, height int) Option`. -/
def WidthxHeight (width height : Int) : Option :=
  ⟨Sprintf "%dx%d" [.int width, .int height]⟩

/-- The source's `Quality(preset string) Option`. -/
def Quality (preset : GoString) : Option :=
  ⟨Sprintf "quality=%s" [.string preset]⟩

/-- The source's `Format(name string) Option`. -/
def Format (name : GoString) : Option :=
  ⟨Sprintf "format=%s" [.string name]⟩

/-- The source's `Timeout(seconds int) Option`. -/
def Timeout (seconds : Int) : Option :=
  ⟨Sprintf "timeout=%d" [.int seconds]⟩

/-- The loop shared by both URL builders:
`for _, opt := range options { optStrings = append(optStrings, opt.value) }`. -/
def optStrings (options : List Option) : List GoString :=
  options.foldl (fun acc opt => acc ++ [opt.value]) []

/-- The source's `Client.createURLForURL`. -/
def createURLForURL (c : Client) (options : List Option) (imageURL : GoString) : GoString :=
  Sprintf "https://im2.io/%s/%s/%s"
    [.string c.apiUser, .string (Join (optStrings options) (lit ",")), .string imageURL]

/-- The source's `Client.createURLForLocal`. -/
def createURLForLocal (c : Client) (options : List Option) : GoString :=
  Sprintf "https://im2.io/%s/%s"
    [.string c.apiUser, .string (Join (optStrings options) (lit ","))]

/-! ## `path/filepath` on Unix -/

/-- Go's `os.IsPathSeparator` on Unix: the byte `/`. -/
def isPathSeparator (b : Byte) : Bool := b == 47

/-- Go's `filepath.Base`: `.` for the empty path; otherwise trailing separators are
stripped (the volume name is empty on Unix), everything up to the last
separator is dropped, and a path that is empty by then (it held separators only)
gives `/`. -/
def Base (path : GoString) : GoString :=
  if path = [] then lit "."
  else
    let stripped := (path.reverse.dropWhile isPathSeparator).reverse
    let last := (stripped.reverse.takeWhile (fun b => !isPathSeparator b)).reverse
    if last = [] then lit "/" else last

/-! ## Errors, readers, requests and responses -/

/-- A Go `error`, identified with the text of its `Error()` method. -/
structure Error where
  msg : GoString
  deriving DecidableEq

/-- Go's `fmt.Errorf` without `%w`: an error whose text is the formatted string. -/
def Errorf (format : String) (args : List Arg) : Error := ⟨Sprintf format args⟩

/-- An `io.Reader` as its consumer sees it: the bytes it delivers, and the
error it ends with (`none` when it ends with EOF, that is, it is read in full). -/
structure Reader where
  data : Bytes
  err : Nilable Error
  deriving DecidableEq

/-- Go's `io.ReadAll`: the data read until EOF or an error, and that error.  The
slice is never nil. -/
def ReadAll (r : Reader) : Bytes × Nilable Error := (r.data, r.err)

/-- What `http.NewRequest` and `req.Header.Set` leave in a `*http.Request`:
method, URL string, the headers set, and the content of the body reader
(`none` for a nil body). -/
structure Request where
  Method : GoString
  URL : GoString
  Header : List (GoString × GoString)
  Body : Nilable Bytes
  deriving DecidableEq

/-- The fields of `*http.Response` that the source reads.  `Header` is the
`map[string][]string` as a list of entries. -/
structure Response where
  StatusCode : Int
  Header : List (GoString × List GoString)
  Body : Reader

/-- Everything outside the process that a call depends on. -/
structure World where
  /-- Go's `os.Open`: the file as a reader, or the error. -/
  Open : GoString → Except Error Reader
  /-- The 30 bytes that `multipart.NewWriter` reads from `crypto/rand`. -/
  rand : List Byte
  rand_length : rand.length = 30
  /-- The `quoteEscaper` of `mime/multipart`, which escapes a parameter value of
  a part header; it is fixed by the Go release the program is built with. -/
  quoteEscaper : GoString → GoString
  /-- The error with which `http.NewRequest` rejects a method and URL, if it does. -/
  urlError : GoString → GoString → Nilable Error
  /-- Go's `(*http.Client).Do`. -/
  Do : Request → Except Error Response

/-- The effects of a call, in the order they happen. -/
inductive Event where
  | osOpen (name : GoString)
  | fileClose (name : GoString)
  | newRequest (method url : GoString) (body : Nilable Bytes)
  | clientDo (req : Request)
  | bodyClose
  | println (line : GoString)
  deriving DecidableEq

/-- The pair `([]byte, error)` a call returns, and the effects it had. -/
structure Outcome where
  bytes : Nilable Bytes
  err : Nilable Error
  trace : List Event

/-- Go's `http.NewRequest(method, url, body)`. -/
def NewRequest (world : World) (method url : GoString) (body : Nilable Bytes) :
    Except Error Request :=
  match world.urlError method url with
  | some err => .error err
  | none => .ok ⟨method, url, [], body⟩

/-- Go's `req.Header.Set(key, value)` on a request. -/
def Request.HeaderSet (req : Request) (key value : GoString) : Request :=
  { req with Header := (key, value) :: req.Header.filter (fun kv => kv.1 != key) }

/-- The `%v` form of a `[]string`: the elements between brackets, separated by
spaces. -/
def formatStrings (l : List GoString) : GoString :=
  lit "[" ++ Join l (lit " ") ++ lit "]"

/-- Go's `fmt.Sprintln`: the operands separated by spaces, then a newline. -/
def Sprintln (operands : List GoString) : GoString :=
  Join operands (lit " ") ++ lit "\n"

/-! ## `mime/multipart` -/

/-- The hexadecimal digit of `n < 16`: `"0123456789abcdef"[n]`. -/
def hexDigit (n : Nat) : Byte := (lit "0123456789abcdef").getD n 0

/-- The `%x` form of a byte: two lower-case hexadecimal digits. -/
def hexByte (b : Byte) : GoString := [hexDigit (b.toNat / 16), hexDigit (b.toNat % 16)]

/-- Go's `multipart.randomBoundary`: `fmt.Sprintf("%x", buf[:])` of the random bytes. -/
def randomBoundary (world : World) : GoString := world.rand.flatMap hexByte

/-- The state of a `multipart.Writer` together with the buffer it writes to. -/
structure Writer where
  w : Bytes
  boundary : GoString
  lastpart : Bool

/-- Go's `multipart.NewWriter(&b)` on a buffer with content `b`. -/
def NewWriter (world : World) (b : Bytes) : Writer := ⟨b, randomBoundary world, false⟩

/-- Go's `(*Writer).CreatePart`: the delimiter line (preceded by a line break when a
part came before), the header lines (`header` lists them by key in sorted
order, as the library writes them) and an empty line. -/
def Writer.CreatePart (mw : Writer) (header : List (GoString × GoString)) : Writer :=
  let delim :=
    if mw.lastpart then Sprintf "\r\n--%s\r\n" [.string mw.boundary]
    else Sprintf "--%s\r\n" [.string mw.boundary]
  let lines := header.flatMap (fun kv => Sprintf "%s: %s\r\n" [.string kv.1, .string kv.2])
  { mw with w := mw.w ++ (delim ++ lines ++ Sprintf "\r\n" []), lastpart := true }

/-- Go's `(*Writer).CreateFormFile(fieldname, filename)`.  Its only error is a
failed write to the underlying writer, which a `bytes.Buffer` never reports. -/
def Writer.CreateFormFile (world : World) (mw : Writer) (fieldname filename : GoString) :
    Except Error Writer :=
  .ok (mw.CreatePart
    [ (lit "Content-Disposition",
        Sprintf "form-data; name=\"%s\"; filename=\"%s\""
          [.string (world.quoteEscaper fieldname), .string (world.quoteEscaper filename)]),
      (lit "Content-Type", lit "application/octet-stream") ])

/-- A write to the part that is open. -/
def Writer.Write (mw : Writer) (d : Bytes) : Writer := { mw with w := mw.w ++ d }

/-- Go's `io.Copy(fw, file)`: everything the reader delivers goes to the part; the
error is the reader's. -/
def Copy (fw : Writer) (src : Reader) : Writer × Nilable Error := (fw.Write src.data, src.err)

/-- Go's `(*Writer).Close`: the closing delimiter. -/
def Writer.Close (mw : Writer) : Writer :=
  { mw with w := mw.w ++ Sprintf "\r\n--%s--\r\n" [.string mw.boundary], lastpart := false }

/-- Go's `strings.ContainsAny` for a set of ASCII characters. -/
def ContainsAny (s chars : GoString) : Bool := s.any (fun b => chars.contains b)

/-- Go's `(*Writer).FormDataContentType`: the boundary is quoted when it holds one
of the characters that need it. -/
def Writer.FormDataContentType (mw : Writer) : GoString :=
  let b :=
    if ContainsAny mw.boundary (lit "()<>@,;:\\\"/[]?= ") then lit "\"" ++ mw.boundary ++ lit "\""
    else mw.boundary
  lit "multipart/form-data; boundary=" ++ b

/-! ## The package: requests -/

/-- The source's `Client.processRequest` (lines 82 to 108).  The deferred
`resp.Body.Close()` is the last event of a call that got a response. -/
def processRequest (world : World) (_c : Client) (requestURL : GoString)
    (body : Nilable Bytes) (contentType : GoString) : Outcome :=
  match NewRequest world (lit "POST") requestURL body with
  | .error err => ⟨none, some err, [.newRequest (lit "POST") requestURL body]⟩
  | .ok req0 =>
    let req := if contentType ≠ lit "" then req0.HeaderSet (lit "Content-Type") contentType else req0
    match world.Do req with
    | .error err => ⟨none, some err, [.newRequest (lit "POST") requestURL body, .clientDo req]⟩
    | .ok resp =>
      if resp.StatusCode ≥ 400 then
        let bodyBytes := (ReadAll resp.Body).1
        ⟨none, some (Errorf "error response from ImageOptim: %s" [.string bodyBytes]),
          [.newRequest (lit "POST") requestURL body, .clientDo req, .bodyClose]⟩
      else
        let printed :=
          match resp.Header.lookup (lit "Warning") with
          | some warning => [Event.println (Sprintln [lit "Warning:", formatStrings warning])]
          | none => []
        let r := ReadAll resp.Body
        ⟨some r.1, r.2,
          [.newRequest (lit "POST") requestURL body, .clientDo req] ++ printed ++ [.bodyClose]⟩

/-- The source's `Client.processLocalFile` (lines 51 to 72).  The deferred
`file.Close()` is the last event of a call that opened the file. -/
def processLocalFile (world : World) (c : Client) (options : List Option)
    (imagePath : GoString) : Outcome :=
  let requestURL := createURLForLocal c options
  let w := NewWriter world []
  match world.Open imagePath with
  | .error err => ⟨none, some err, [.osOpen imagePath]⟩
  | .ok file =>
    match w.CreateFormFile world (lit "file") (Base imagePath) with
    | .error err => ⟨none, some err, [.osOpen imagePath, .fileClose imagePath]⟩
    | .ok fw =>
      match Copy fw file with
      | (_, some err) => ⟨none, some err, [.osOpen imagePath, .fileClose imagePath]⟩
      | (fw, none) =>
        let w := fw.Close
        let out := processRequest world c requestURL (some w.w) w.FormDataContentType
        ⟨out.bytes, out.err, [.osOpen imagePath] ++ out.trace ++ [.fileClose imagePath]⟩

/-- The source's `Client.OptimizeImage` (lines 34 to 41). -/
def OptimizeImage (world : World) (c : Client) (options : List Option) (input : GoString) :
    Outcome :=
  if HasPrefix input (lit "http://") || HasPrefix input (lit "https://") then
    let requestURL := createURLForURL c options input
    processRequest world c requestURL none (lit "")
  else
    processLocalFile world c options input

/-! ## Notions of the specification -/

/-- The decimal numeral of an integer: the base-10 digits of its magnitude,
most significant first, `0` for zero, with a leading `-` when it is negative. -/
def decimal (i : Int) : GoString :=
  let ds := if i = 0 then lit "0" else (Nat.digits 10 i.natAbs).reverse.map digitByte
  if i < 0 then lit "-" ++ ds else ds

/-- The requests handed to `client.Do`, in order. -/
def sent (trace : List Event) : List Request :=
  trace.filterMap (fun e => match e with | .clientDo req => some req | _ => none)

/-- The arguments of the `http.NewRequest` calls, in order. -/
def constructed (trace : List Event) : List (GoString × GoString × Nilable Bytes) :=
  trace.filterMap (fun e => match e with | .newRequest m u b => some (m, u, b) | _ => none)

/-- The paths handed to `os.Open`, in order. -/
def opened (trace : List Event) : List GoString :=
  trace.filterMap (fun e => match e with | .osOpen name => some name | _ => none)

/-- The lines printed on standard output, in order. -/
def printed (trace : List Event) : List GoString :=
  trace.filterMap (fun e => match e with | .println line => some line | _ => none)

/-- One file part of a multipart form. -/
structure FilePart where
  fieldname : GoString
  filename : GoString
  content : Bytes

/-- The header block and content of a file part on the wire; `esc` escapes a
parameter value for its place between double quotes. -/
def partBytes (esc : GoString → GoString) (p : FilePart) : Bytes :=
  lit "Content-Disposition: form-data; name=\"" ++ esc p.fieldname ++
    lit "\"; filename=\"" ++ esc p.filename ++
    lit "\"\r\nContent-Type: application/octet-stream\r\n\r\n" ++ p.content

/-- The wire form of a closed `multipart/form-data` body: each part after its
delimiter line, then the closing delimiter. -/
def formBody (esc : GoString → GoString) (boundary : GoString) : List FilePart → Bytes
  | [] => lit "\r\n--" ++ boundary ++ lit "--\r\n"
  | p :: ps =>
    lit "--" ++ boundary ++ lit "\r\n" ++ partBytes esc p ++
      ps.flatMap (fun q => lit "\r\n--" ++ boundary ++ lit "\r\n" ++ partBytes esc q) ++
      lit "\r\n--" ++ boundary ++ lit "--\r\n"

/-! ## Sample worlds -/

/-- The check `stringContainsCTLByte` of `net/url`, with which `url.Parse`
rejects a URL: a byte below `0x20` or the byte `0x7f`. -/
def stringContainsCTLByte (s : GoString) : Bool := s.any (fun b => b < 32 || b == 127)

/-- The `quoteEscaper` of `mime/multipart`: a backslash before every backslash
and every double quote. -/
def escapeQuotes (s : GoString) : GoString :=
  s.flatMap (fun b => if b = 92 ∨ b = 34 then [92, b] else [b])

/-- The error of `os.Open` for a file that does not exist. -/
def noSuchFile (name : GoString) : Error :=
  ⟨lit "open " ++ name ++ lit ": no such file or directory"⟩

/-- A world with one file, `/srv/img/cat.png`, whose random source delivers
`seed` thirty times, whose `http.NewRequest` rejects control characters, and
whose service answers every request with `reply`. -/
def sampleWorld (seed : Byte) (reply : Except Error Response) : World where
  Open name :=
    if name = lit "/srv/img/cat.png" then .ok ⟨[137, 80, 78, 71], none⟩
    else .error (noSuchFile name)
  rand := List.replicate 30 seed
  rand_length := List.length_replicate 30 seed
  quoteEscaper := escapeQuotes
  urlError _ url :=
    if stringContainsCTLByte url then some ⟨lit "net/url: invalid control character in URL"⟩
    else none
  Do _ := reply

/-- An answer of the service whose body is read in full. -/
def reply (status : Int) (header : List (GoString × List GoString)) (body : Bytes) :
    Except Error Response :=
  .ok ⟨status, header, ⟨body, none⟩⟩

/-! ## Lemmas on the library functions -/

theorem foldl_append_singleton (options : List Option) (acc : List GoString) :
    options.foldl (fun acc opt => acc ++ [opt.value]) acc = acc ++ options.map Option.value := by
  induction options generalizing acc with
  | nil => simp
  | cons o os ih => simp [ih]

theorem optStrings_eq_map (options : List Option) :
    optStrings options = options.map Option.value := by
  simp [optStrings, foldl_append_singleton]

theorem foldl_sep (rest : List GoString) (sep e : GoString) :
    rest.foldl (fun b s => b ++ sep ++ s) e = e ++ rest.flatMap (fun s => sep ++ s) := by
  induction rest generalizing e with
  | nil => simp
  | cons x xs ih => simp only [List.foldl_cons, List.flatMap_cons]; rw [ih]; simp [List.append_assoc]

theorem intercalate_cons_cons (sep e x : GoString) (xs : List GoString) :
    sep.intercalate (e :: x :: xs) = e ++ sep ++ sep.intercalate (x :: xs) := by
  simp [List.intercalate, List.intersperse]

theorem intercalate_eq (sep e : GoString) (rest : List GoString) :
    sep.intercalate (e :: rest) = e ++ rest.flatMap (fun s => sep ++ s) := by
  induction rest generalizing e with
  | nil => simp [List.intercalate]
  | cons x xs ih => rw [intercalate_cons_cons, ih]; simp [List.append_assoc]

theorem Join_eq_intercalate (elems : List GoString) (sep : GoString) :
    Join elems sep = sep.intercalate elems := by
  match elems with
  | [] => simp [Join, List.intercalate]
  | [e] => simp [Join, List.intercalate]
  | e :: x :: xs => simp only [Join]; rw [foldl_sep, intercalate_eq]

theorem fmtDigits_eq (fuel u : Nat) (acc : List Byte) (h : u ≤ fuel) :
    fmtDigits fuel u acc =
      (if u = 0 then lit "0" else (Nat.digits 10 u).reverse.map digitByte) ++ acc := by
  induction fuel generalizing u acc with
  | zero =>
    have hu : u = 0 := by omega
    subst hu
    rfl
  | succ fuel ih =>
    unfold fmtDigits
    split
    · rename_i hge
      have hpos : 0 < u := by omega
      have hq : u / 10 ≠ 0 := by omega
      have hu : u ≠ 0 := by omega
      have hsub : u - u / 10 * 10 = u % 10 := by omega
      rw [ih (u / 10) _ (by omega), Nat.digits_def' (by norm_num) hpos, hsub]
      simp [hq, hu]
    · rename_i hlt
      by_cases hu : u = 0
      · subst hu
        rfl
      · rw [Nat.digits_of_lt 10 u hu (by omega)]
        simp [hu]

theorem fmtInteger_eq_decimal (i : Int) : fmtInteger i = decimal i := by
  unfold fmtInteger decimal
  rw [fmtDigits_eq _ _ _ (le_refl _)]
  have h0 : i.natAbs = 0 ↔ i = 0 := Int.natAbs_eq_zero
  by_cases hi : i = 0
  · subst hi
    rfl
  · have hn : i.natAbs ≠ 0 := fun h => hi (h0.mp h)
    simp only [hn, hi, if_false, List.append_nil]
    split <;> rfl

/-- C2: every option constructor encodes its arguments by its fixed template,
for all integers and all strings, and the four constants are the four literals. -/
theorem option_encoding (width height seconds : Int) (preset name : GoString) :
    (WidthxHeight width height).value = decimal width ++ lit "x" ++ decimal height ∧
    (Quality preset).value = lit "quality=" ++ preset ∧
    (Format name).value = lit "format=" ++ name ∧
    (Timeout seconds).value = lit "timeout=" ++ decimal seconds ∧
    Full.value = lit "full" ∧ Fit.value = lit "fit" ∧
    ScaleDown.value = lit "scale-down" ∧ QualityLow.value = lit "quality=low" ∧
    (WidthxHeight (-5) 0).value = lit "-5x0" ∧ (Timeout (-30)).value = lit "timeout=-30" ∧
    (Quality (lit "")).value = lit "quality=" ∧ (Format (lit "")).value = lit "format=" := by
  refine ⟨?_, ?_, ?_, ?_, rfl, rfl, rfl, rfl, by decide, by decide, by decide, by decide⟩
  · simp [WidthxHeight, Sprintf, doPrintf, printArg, printExtra, lit, fmtInteger_eq_decimal]
  · simp [Quality, Sprintf, doPrintf, printArg, printExtra, lit]
  · simp [Format, Sprintf, doPrintf, printArg, printExtra, lit]
  · simp [Timeout, Sprintf, doPrintf, printArg, printExtra, lit, fmtInteger_eq_decimal]

theorem HasPrefix_iff (s pre : GoString) : HasPrefix s pre = true ↔ pre <+: s := by
  unfold HasPrefix
  rw [Bool.and_eq_true, decide_eq_true_eq, beq_iff_eq, List.prefix_iff_eq_take]
  constructor
  · rintro ⟨_, h⟩
    exact h.symm
  · intro h
    refine ⟨?_, h.symm⟩
    have := congrArg List.length h
    rw [List.length_take] at this
    omega

/-- The remote URL in closed form: the option values in the order given,
separated by commas, between the identity and the source. -/
theorem createURLForURL_eq (c : Client) (options : List Option) (imageURL : GoString) :
    createURLForURL c options imageURL =
      lit "https://im2.io/" ++ c.apiUser ++ lit "/" ++
        (lit ",").intercalate (options.map Option.value) ++ lit "/" ++ imageURL := by
  simp [createURLForURL, Sprintf, doPrintf, printArg, printExtra, lit, Join_eq_intercalate,
    optStrings_eq_map]

theorem createURLForLocal_eq (c : Client) (options : List Option) :
    createURLForLocal c options =
      lit "https://im2.io/" ++ c.apiUser ++ lit "/" ++
        (lit ",").intercalate (options.map Option.value) := by
  simp [createURLForLocal, Sprintf, doPrintf, printArg, printExtra, lit, Join_eq_intercalate,
    optStrings_eq_map]

theorem hexDigit_plain (n : Nat) (h : n < 16) :
    (lit "()<>@,;:\\\"/[]?= ").contains (hexDigit n) = false := by
  revert n
  decide

theorem randomBoundary_plain (world : World) :
    ContainsAny (randomBoundary world) (lit "()<>@,;:\\\"/[]?= ") = false := by
  unfold ContainsAny randomBoundary
  rw [List.any_eq_false]
  intro b hb
  rw [List.mem_flatMap] at hb
  obtain ⟨x, _, hx⟩ := hb
  have hlt : x.toNat < 256 := x.toNat_lt
  simp only [hexByte, List.mem_cons, List.mem_singleton, List.not_mem_nil, or_false] at hx
  rcases hx with rfl | rfl
  · simpa using hexDigit_plain _ (by omega)
  · simpa using hexDigit_plain _ (by omega)

theorem FormDataContentType_eq (world : World) (b : Bytes) (l : Bool) :
    (Writer.mk b (randomBoundary world) l).FormDataContentType =
      lit "multipart/form-data; boundary=" ++ randomBoundary world := by
  simp [Writer.FormDataContentType, randomBoundary_plain]

/-! ## Lemmas on the requests of a call -/

theorem processRequest_constructed (world : World) (c : Client) (url : GoString)
    (body : Nilable Bytes) (ct : GoString) :
    constructed (processRequest world c url body ct).trace = [(lit "POST", url, body)] := by
  cases h : world.urlError (lit "POST") url with
  | some e => simp [processRequest, NewRequest, h, constructed]
  | none =>
    simp only [processRequest, NewRequest, h]
    repeat' split
    all_goals simp [constructed]

theorem processRequest_opened (world : World) (c : Client) (url : GoString)
    (body : Nilable Bytes) (ct : GoString) :
    opened (processRequest world c url body ct).trace = [] := by
  cases h : world.urlError (lit "POST") url with
  | some e => simp [processRequest, NewRequest, h, opened]
  | none =>
    simp only [processRequest, NewRequest, h]
    repeat' split
    all_goals simp [opened]

theorem processRequest_rejected (world : World) (c : Client) (url : GoString)
    (body : Nilable Bytes) (ct : GoString) (e : Error)
    (h : world.urlError (lit "POST") url = some e) :
    processRequest world c url body ct =
      ⟨none, some e, [.newRequest (lit "POST") url body]⟩ := by
  simp [processRequest, NewRequest, h]

theorem processRequest_sent (world : World) (c : Client) (url : GoString)
    (body : Nilable Bytes) (ct : GoString)
    (h : world.urlError (lit "POST") url = none) :
    sent (processRequest world c url body ct).trace =
      [if ct ≠ lit "" then
          Request.HeaderSet ⟨lit "POST", url, [], body⟩ (lit "Content-Type") ct
        else ⟨lit "POST", url, [], body⟩] := by
  simp only [processRequest, NewRequest, h]
  repeat' split
  all_goals simp [sent]

theorem OptimizeImage_remote (world : World) (c : Client) (O : List Option) (s : GoString)
    (h : lit "http://" <+: s ∨ lit "https://" <+: s) :
    OptimizeImage world c O s = processRequest world c (createURLForURL c O s) none (lit "") := by
  have h' : (HasPrefix s (lit "http://") || HasPrefix s (lit "https://")) = true := by
    rw [Bool.or_eq_true, HasPrefix_iff, HasPrefix_iff]
    exact h
  simp [OptimizeImage, h']

theorem OptimizeImage_local (world : World) (c : Client) (O : List Option) (s : GoString)
    (h : ¬ (lit "http://" <+: s ∨ lit "https://" <+: s)) :
    OptimizeImage world c O s = processLocalFile world c O s := by
  have h' : ¬ (HasPrefix s (lit "http://") || HasPrefix s (lit "https://")) = true := by
    rw [Bool.or_eq_true, HasPrefix_iff, HasPrefix_iff]
    exact h
  simp [OptimizeImage, h']

theorem processLocalFile_opened (world : World) (c : Client) (O : List Option) (s : GoString) :
    opened (processLocalFile world c O s).trace = [s] ∧
      (processLocalFile world c O s).trace.head? = some (.osOpen s) := by
  unfold processLocalFile
  simp only [Writer.CreateFormFile, Copy]
  cases world.Open s with
  | error e => simp [opened]
  | ok file =>
    cases hf : file.err with
    | some e => simp [opened, hf]
    | none =>
      have := processRequest_opened world c (createURLForLocal c O)
      simp only [opened] at this
      simp [opened, hf, this]

/-- C1 (as amended): for a source with prefix `http://` or `https://` the call
makes exactly one `http.NewRequest` call, with method POST, the URL
`https://im2.io/<id>/<options joined by commas in order>/<source>` and a nil
body; when that URL is accepted exactly one request is issued, that POST with
no body and no header, and when it is rejected none is issued and the call
returns nil bytes and the rejection error. -/
theorem remote_request (world : World) (id : GoString) (O : List Option) (U : GoString)
    (hU : lit "http://" <+: U ∨ lit "https://" <+: U) :
    constructed (OptimizeImage world (NewClient id) O U).trace =
      [(lit "POST",
        lit "https://im2.io/" ++ id ++ lit "/" ++
          (lit ",").intercalate (O.map Option.value) ++ lit "/" ++ U,
        none)] ∧
    (world.urlError (lit "POST")
        (lit "https://im2.io/" ++ id ++ lit "/" ++
          (lit ",").intercalate (O.map Option.value) ++ lit "/" ++ U) = none →
      sent (OptimizeImage world (NewClient id) O U).trace =
        [⟨lit "POST",
          lit "https://im2.io/" ++ id ++ lit "/" ++
            (lit ",").intercalate (O.map Option.value) ++ lit "/" ++ U,
          [], none⟩]) ∧
    (∀ e, world.urlError (lit "POST")
        (lit "https://im2.io/" ++ id ++ lit "/" ++
          (lit ",").intercalate (O.map Option.value) ++ lit "/" ++ U) = some e →
      sent (OptimizeImage world (NewClient id) O U).trace = [] ∧
      (OptimizeImage world (NewClient id) O U).bytes = none ∧
      (OptimizeImage world (NewClient id) O U).err = some e) := by
  have hid : (NewClient id).apiUser = id := rfl
  rw [OptimizeImage_remote world _ O U hU, createURLForURL_eq, hid]
  refine ⟨processRequest_constructed _ _ _ _ _, ?_, ?_⟩
  · intro h
    rw [processRequest_sent _ _ _ _ _ h]
    simp
  · intro e h
    rw [processRequest_rejected _ _ _ _ _ e h]
    simp [sent]

/-- C1, at the input of the specification: the identity `user1`, the options
`Full` and `WidthxHeight(100, 200)` and the source `https://example.com/a.jpg`. -/
theorem remote_request_witness :
    (lit "http://" <+: lit "https://example.com/a.jpg" ∨
      lit "https://" <+: lit "https://example.com/a.jpg") ∧
    sent (OptimizeImage (sampleWorld 7 (reply 200 [] [1, 2, 3])) (NewClient (lit "user1"))
        [Full, WidthxHeight 100 200] (lit "https://example.com/a.jpg")).trace =
      [⟨lit "POST", lit "https://im2.io/user1/full,100x200/https://example.com/a.jpg",
        [], none⟩] :=
  ⟨Or.inr (by decide),
    ((remote_request (sampleWorld 7 (reply 200 [] [1, 2, 3])) (lit "user1")
      [Full, WidthxHeight 100 200] (lit "https://example.com/a.jpg")
      (Or.inr (by decide))).2.1 (by decide)).trans (by decide)⟩

/-- C1 as stated fails: with the identity `user1` followed by a line feed,
`http.NewRequest` rejects the URL for its control character, and no request
is issued at all. -/
theorem remote_request_counterexample :
    sent (OptimizeImage (sampleWorld 7 (reply 200 [] [1, 2, 3])) (NewClient (lit "user1\n"))
        [Full] (lit "https://example.com/a.jpg")).trace = [] ∧
    ¬ ∀ (world : World) (id : GoString) (O : List Option) (U : GoString),
      (lit "http://" <+: U ∨ lit "https://" <+: U) →
      sent (OptimizeImage world (NewClient id) O U).trace =
        [⟨lit "POST",
          lit "https://im2.io/" ++ id ++ lit "/" ++
            (lit ",").intercalate (O.map Option.value) ++ lit "/" ++ U,
          [], none⟩] := by
  have h0 : sent (OptimizeImage (sampleWorld 7 (reply 200 [] [1, 2, 3]))
      (NewClient (lit "user1\n")) [Full] (lit "https://example.com/a.jpg")).trace = [] := by
    decide
  refine ⟨h0, fun h => ?_⟩
  have h1 := h (sampleWorld 7 (reply 200 [] [1, 2, 3])) (lit "user1\n") [Full]
    (lit "https://example.com/a.jpg") (Or.inr (by decide))
  rw [h0] at h1
  exact List.noConfusion h1

/-- C3: a source takes the remote-URL branch (no file is opened and the
request URL ends with the source) exactly when it has the prefix `http://` or
`https://`, byte for byte; every other source, the empty one included, is handed to
`os.Open` as a path before anything else happens. -/
theorem source_classification (world : World) (c : Client) (O : List Option) (s : GoString) :
    ((lit "http://" <+: s ∨ lit "https://" <+: s) ↔
      opened (OptimizeImage world c O s).trace = []) ∧
    ((lit "http://" <+: s ∨ lit "https://" <+: s) →
      constructed (OptimizeImage world c O s).trace =
        [(lit "POST", createURLForURL c O s, none)] ∧
      s <:+ createURLForURL c O s) ∧
    (¬ (lit "http://" <+: s ∨ lit "https://" <+: s) →
      (OptimizeImage world c O s).trace.head? = some (.osOpen s) ∧
      opened (OptimizeImage world c O s).trace = [s]) ∧
    opened (OptimizeImage world c O (lit "")).trace = [lit ""] ∧
    opened (OptimizeImage world c O (lit "HTTP://x")).trace = [lit "HTTP://x"] ∧
    opened (OptimizeImage world c O (lit "http:/x")).trace = [lit "http:/x"] ∧
    opened (OptimizeImage world c O (lit "ftp://x")).trace = [lit "ftp://x"] := by
  have hloc : ∀ t : GoString, ¬ (lit "http://" <+: t ∨ lit "https://" <+: t) →
      (OptimizeImage world c O t).trace.head? = some (.osOpen t) ∧
      opened (OptimizeImage world c O t).trace = [t] := by
    intro t ht
    rw [OptimizeImage_local world c O t ht]
    exact ⟨(processLocalFile_opened world c O t).2, (processLocalFile_opened world c O t).1⟩
  refine ⟨⟨fun h => ?_, fun h => ?_⟩, fun h => ⟨?_, ?_⟩, hloc s,
    (hloc _ (by decide)).2, (hloc _ (by decide)).2, (hloc _ (by decide)).2,
    (hloc _ (by decide)).2⟩
  · rw [OptimizeImage_remote world c O s h]
    exact processRequest_opened _ _ _ _ _
  · by_contra hn
    rw [(hloc s hn).2] at h
    exact List.noConfusion h
  · rw [OptimizeImage_remote world c O s h]
    exact processRequest_constructed _ _ _ _ _
  · rw [createURLForURL_eq]
    exact List.suffix_append _ _

/-- C4: the URL built for a local source is `https://im2.io/<id>/` followed by
the option values joined by commas in order, whatever the path is; with no
options it ends with the slash after the identity; and it is the URL of every
request that `processLocalFile` constructs or sends. -/
theorem local_url (world : World) (id : GoString) (O : List Option) (P : GoString) :
    createURLForLocal (NewClient id) O =
      lit "https://im2.io/" ++ id ++ lit "/" ++ (lit ",").intercalate (O.map Option.value) ∧
    createURLForLocal (NewClient id) [] = lit "https://im2.io/" ++ id ++ lit "/" ∧
    (∀ x ∈ constructed (processLocalFile world (NewClient id) O P).trace,
      x.2.1 = lit "https://im2.io/" ++ id ++ lit "/" ++
        (lit ",").intercalate (O.map Option.value)) ∧
    (∀ req ∈ sent (processLocalFile world (NewClient id) O P).trace,
      req.URL = lit "https://im2.io/" ++ id ++ lit "/" ++
        (lit ",").intercalate (O.map Option.value)) ∧
    (∀ file, world.Open P = .ok file → file.err = none →
      (constructed (processLocalFile world (NewClient id) O P).trace).map (fun x => x.2.1) =
        [lit "https://im2.io/" ++ id ++ lit "/" ++
          (lit ",").intercalate (O.map Option.value)]) := by
  have hid : (NewClient id).apiUser = id := rfl
  have hurl := createURLForLocal_eq (NewClient id) O
  rw [hid] at hurl
  refine ⟨hurl, ?_, ?_, ?_, ?_⟩
  · have := createURLForLocal_eq (NewClient id) []
    simpa [hid, List.intercalate] using this
  · intro x hx
    rw [← hurl]
    unfold processLocalFile at hx
    simp only [Writer.CreateFormFile, Copy] at hx
    cases hopen : world.Open P with
    | error e => simp [hopen, constructed] at hx
    | ok file =>
      cases hf : file.err with
      | some e => simp [hopen, hf, constructed] at hx
      | none =>
        have hc := processRequest_constructed world (NewClient id)
          (createURLForLocal (NewClient id) O)
        simp only [constructed] at hc
        simp [hopen, hf, constructed, hc] at hx
        rw [hx]
  · intro req hreq
    rw [← hurl]
    unfold processLocalFile at hreq
    simp only [Writer.CreateFormFile, Copy] at hreq
    cases hopen : world.Open P with
    | error e => simp [hopen, sent] at hreq
    | ok file =>
      cases hf : file.err with
      | some e => simp [hopen, hf, sent] at hreq
      | none =>
        cases hv : world.urlError (lit "POST") (createURLForLocal (NewClient id) O) with
        | some e =>
          simp [hopen, hf, sent, processRequest_rejected _ _ _ _ _ e hv] at hreq
        | none =>
          have hs := processRequest_sent world (NewClient id)
            (createURLForLocal (NewClient id) O)
          simp only [sent] at hs
          simp [hopen, hf, sent, hs _ _ hv] at hreq
          rw [hreq]
          split <;> rfl
  · intro file hopen hf
    rw [← hurl]
    unfold processLocalFile
    simp only [Writer.CreateFormFile, Copy]
    have hc := processRequest_constructed world (NewClient id)
      (createURLForLocal (NewClient id) O)
    simp only [constructed] at hc
    simp [hopen, hf, constructed, hc]

/-- C8: when opening a local source fails with `e`, the call returns nil bytes
and `e` itself, and apart from the `os.Open` call nothing happens: no request
is constructed and none is sent. -/
theorem unopenable_file (world : World) (c : Client) (O : List Option) (s : GoString)
    (e : Error) (hlocal : ¬ (lit "http://" <+: s ∨ lit "https://" <+: s))
    (hopen : world.Open s = .error e) :
    (OptimizeImage world c O s).bytes = none ∧
    (OptimizeImage world c O s).err = some e ∧
    (OptimizeImage world c O s).trace = [.osOpen s] ∧
    constructed (OptimizeImage world c O s).trace = [] ∧
    sent (OptimizeImage world c O s).trace = [] := by
  rw [OptimizeImage_local world c O s hlocal]
  simp [processLocalFile, hopen, constructed, sent]

/-- C8, at a path that does not exist. -/
theorem unopenable_file_witness :
    ¬ (lit "http://" <+: lit "/srv/img/dog.png" ∨ lit "https://" <+: lit "/srv/img/dog.png") ∧
    (sampleWorld 7 (reply 200 [] [1, 2, 3])).Open (lit "/srv/img/dog.png") =
      .error (noSuchFile (lit "/srv/img/dog.png")) ∧
    (OptimizeImage (sampleWorld 7 (reply 200 [] [1, 2, 3])) (NewClient (lit "user1")) [Fit]
      (lit "/srv/img/dog.png")).err = some (noSuchFile (lit "/srv/img/dog.png")) ∧
    sent (OptimizeImage (sampleWorld 7 (reply 200 [] [1, 2, 3])) (NewClient (lit "user1")) [Fit]
      (lit "/srv/img/dog.png")).trace = [] :=
  have h := unopenable_file (sampleWorld 7 (reply 200 [] [1, 2, 3])) (NewClient (lit "user1"))
    [Fit] (lit "/srv/img/dog.png") (noSuchFile (lit "/srv/img/dog.png")) (by decide) rfl
  ⟨by decide, rfl, h.2.1, h.2.2.2.2⟩

theorem Errorf_service (b : Bytes) :
    Errorf "error response from ImageOptim: %s" [.string b] =
      ⟨lit "error response from ImageOptim: " ++ b⟩ := by
  simp [Errorf, Sprintf, doPrintf, printArg, printExtra, lit]

theorem Sprintln_warning (warning : List GoString) :
    Sprintln [lit "Warning:", formatStrings warning] =
      lit "Warning: " ++ formatStrings warning ++ lit "\n" := by
  simp [Sprintln, Join, lit]

theorem processRequest_answered (world : World) (c : Client) (url : GoString)
    (body : Nilable Bytes) (ct : GoString) (req : Request) (resp : Response)
    (hreq : req ∈ sent (processRequest world c url body ct).trace)
    (hdo : world.Do req = .ok resp) :
    (resp.StatusCode ≥ 400 →
      (processRequest world c url body ct).bytes = none ∧
      (processRequest world c url body ct).err =
        some ⟨lit "error response from ImageOptim: " ++ resp.Body.data⟩) ∧
    (resp.StatusCode < 400 →
      (processRequest world c url body ct).bytes = some resp.Body.data ∧
      (processRequest world c url body ct).err = resp.Body.err ∧
      printed (processRequest world c url body ct).trace =
        match resp.Header.lookup (lit "Warning") with
        | some warning => [lit "Warning: " ++ formatStrings warning ++ lit "\n"]
        | none => []) := by
  cases hv : world.urlError (lit "POST") url with
  | some e =>
    rw [processRequest_rejected _ _ _ _ _ e hv] at hreq
    simp [sent] at hreq
  | none =>
    rw [processRequest_sent _ _ _ _ _ hv, List.mem_singleton] at hreq
    subst hreq
    constructor
    · intro hs
      simp only [processRequest, NewRequest, hv, hdo, hs, if_true, ReadAll, Errorf_service,
        and_self]
    · intro hs
      have hs' : ¬ resp.StatusCode ≥ 400 := by omega
      cases hw : resp.Header.lookup (lit "Warning") with
      | none =>
        simp only [processRequest, NewRequest, hv, hdo, hs', if_false, ReadAll, hw, printed]
        simp
      | some warning =>
        simp only [processRequest, NewRequest, hv, hdo, hs', if_false, ReadAll, hw, printed,
          Sprintln_warning]
        simp

/-- C5 (as amended): a response with status 400 or more whose body `B` is read
in full makes the call return nil bytes and an error whose text is exactly
`error response from ImageOptim: ` followed by `B`. -/
theorem remote_error_message (world : World) (c : Client) (url : GoString)
    (body : Nilable Bytes) (ct : GoString) (req : Request) (resp : Response) (B : Bytes)
    (hreq : req ∈ sent (processRequest world c url body ct).trace)
    (hdo : world.Do req = .ok resp) (hstatus : resp.StatusCode ≥ 400)
    (hbody : resp.Body = ⟨B, none⟩) :
    (processRequest world c url body ct).bytes = none ∧
    (processRequest world c url body ct).err =
      some ⟨lit "error response from ImageOptim: " ++ B⟩ := by
  have h := (processRequest_answered world c url body ct req resp hreq hdo).1 hstatus
  rw [hbody] at h
  exact h

/-- C5, at status 500 with body `bad input`. -/
theorem remote_error_message_witness :
    (⟨lit "POST", lit "https://im2.io/user1/fit/https://example.com/a.jpg", [], none⟩ : Request) ∈
      sent (processRequest (sampleWorld 7 (reply 500 [] (lit "bad input")))
        (NewClient (lit "user1")) (lit "https://im2.io/user1/fit/https://example.com/a.jpg")
        none (lit "")).trace ∧
    (processRequest (sampleWorld 7 (reply 500 [] (lit "bad input")))
        (NewClient (lit "user1")) (lit "https://im2.io/user1/fit/https://example.com/a.jpg")
        none (lit "")).err =
      some ⟨lit "error response from ImageOptim: " ++ lit "bad input"⟩ :=
  ⟨by decide,
    (remote_error_message (sampleWorld 7 (reply 500 [] (lit "bad input")))
      (NewClient (lit "user1")) (lit "https://im2.io/user1/fit/https://example.com/a.jpg")
      none (lit "")
      ⟨lit "POST", lit "https://im2.io/user1/fit/https://example.com/a.jpg", [], none⟩
      ⟨500, [], ⟨lit "bad input", none⟩⟩ (lit "bad input") (by decide) rfl (by decide) rfl).2⟩

/-- C5 as stated fails: at status 500 with body `bad input` the error text is
`error response from ImageOptim: bad input`, not
`error response from service: bad input`. -/
theorem remote_error_message_counterexample :
    (processRequest (sampleWorld 7 (reply 500 [] (lit "bad input")))
        (NewClient (lit "user1")) (lit "https://im2.io/user1/fit/https://example.com/a.jpg")
        none (lit "")).err = some ⟨lit "error response from ImageOptim: bad input"⟩ ∧
    (processRequest (sampleWorld 7 (reply 500 [] (lit "bad input")))
        (NewClient (lit "user1")) (lit "https://im2.io/user1/fit/https://example.com/a.jpg")
        none (lit "")).err ≠ some ⟨lit "error response from service: bad input"⟩ := by
  constructor <;> decide

/-- C6: a response with status 400 or more whose body `B` is read in full makes
the call return nil bytes and a non-nil error whose text contains `B` as a
contiguous run of bytes. -/
theorem remote_error_embeds_body (world : World) (c : Client) (url : GoString)
    (body : Nilable Bytes) (ct : GoString) (req : Request) (resp : Response) (B : Bytes)
    (hreq : req ∈ sent (processRequest world c url body ct).trace)
    (hdo : world.Do req = .ok resp) (hstatus : resp.StatusCode ≥ 400)
    (hbody : resp.Body = ⟨B, none⟩) :
    (processRequest world c url body ct).bytes = none ∧
    ∃ e, (processRequest world c url body ct).err = some e ∧ B <:+: e.msg := by
  have h := (processRequest_answered world c url body ct req resp hreq hdo).1 hstatus
  rw [hbody] at h
  exact ⟨h.1, _, h.2, (List.suffix_append _ _).isInfix⟩

/-- C6, at status 400 with body `bad input`. -/
theorem remote_error_embeds_body_witness :
    (⟨lit "POST", lit "https://im2.io/user1/fit", [], none⟩ : Request) ∈
      sent (processRequest (sampleWorld 7 (reply 400 [] (lit "bad input")))
        (NewClient (lit "user1")) (lit "https://im2.io/user1/fit") none (lit "")).trace ∧
    (400 : Int) ≥ 400 ∧
    ∃ e, (processRequest (sampleWorld 7 (reply 400 [] (lit "bad input")))
        (NewClient (lit "user1")) (lit "https://im2.io/user1/fit") none (lit "")).err = some e ∧
      lit "bad input" <:+: e.msg :=
  ⟨by decide, by decide,
    (remote_error_embeds_body (sampleWorld 7 (reply 400 [] (lit "bad input")))
      (NewClient (lit "user1")) (lit "https://im2.io/user1/fit") none (lit "")
      ⟨lit "POST", lit "https://im2.io/user1/fit", [], none⟩
      ⟨400, [], ⟨lit "bad input", none⟩⟩ (lit "bad input") (by decide) rfl (by decide) rfl).2⟩

/-- C7: a response with status below 400 whose body `B` is read in full makes
the call return exactly `B` and a nil error, and two such responses with the
same body give the same result whatever their headers are; a `Warning` header
only adds one printed line. -/
theorem warning_header_independent (world₁ world₂ : World) (c : Client) (url : GoString)
    (body : Nilable Bytes) (ct : GoString) (req₁ req₂ : Request) (resp₁ resp₂ : Response)
    (B : Bytes)
    (hreq₁ : req₁ ∈ sent (processRequest world₁ c url body ct).trace)
    (hdo₁ : world₁.Do req₁ = .ok resp₁)
    (hreq₂ : req₂ ∈ sent (processRequest world₂ c url body ct).trace)
    (hdo₂ : world₂.Do req₂ = .ok resp₂)
    (hstatus₁ : resp₁.StatusCode < 400) (hstatus₂ : resp₂.StatusCode < 400)
    (hbody₁ : resp₁.Body = ⟨B, none⟩) (hbody₂ : resp₂.Body = ⟨B, none⟩) :
    (processRequest world₁ c url body ct).bytes = some B ∧
    (processRequest world₁ c url body ct).err = none ∧
    (processRequest world₂ c url body ct).bytes = (processRequest world₁ c url body ct).bytes ∧
    (processRequest world₂ c url body ct).err = (processRequest world₁ c url body ct).err ∧
    (resp₁.Header.lookup (lit "Warning") = none →
      printed (processRequest world₁ c url body ct).trace = []) ∧
    (∀ warning, resp₁.Header.lookup (lit "Warning") = some warning →
      printed (processRequest world₁ c url body ct).trace =
        [lit "Warning: " ++ formatStrings warning ++ lit "\n"]) := by
  have h₁ := (processRequest_answered world₁ c url body ct req₁ resp₁ hreq₁ hdo₁).2 hstatus₁
  have h₂ := (processRequest_answered world₂ c url body ct req₂ resp₂ hreq₂ hdo₂).2 hstatus₂
  rw [hbody₁] at h₁
  rw [hbody₂] at h₂
  refine ⟨h₁.1, h₁.2.1, h₂.1.trans h₁.1.symm, h₂.2.1.trans h₁.2.1.symm, ?_, ?_⟩
  · intro hw
    rw [h₁.2.2, hw]
  · intro warning hw
    rw [h₁.2.2, hw]

/-- C7, at status 200 with a `Warning` header against status 399 without one. -/
theorem warning_header_independent_witness :
    (processRequest (sampleWorld 7 (reply 200 [(lit "Warning", [lit "199 - slow"])] [1, 2, 3]))
      (NewClient (lit "user1")) (lit "https://im2.io/user1/fit") none (lit "")).bytes =
      some [1, 2, 3] ∧
    (processRequest (sampleWorld 7 (reply 200 [(lit "Warning", [lit "199 - slow"])] [1, 2, 3]))
      (NewClient (lit "user1")) (lit "https://im2.io/user1/fit") none (lit "")).err = none ∧
    (processRequest (sampleWorld 7 (reply 399 [] [1, 2, 3]))
      (NewClient (lit "user1")) (lit "https://im2.io/user1/fit") none (lit "")).bytes =
      some [1, 2, 3] ∧
    printed (processRequest
      (sampleWorld 7 (reply 200 [(lit "Warning", [lit "199 - slow"])] [1, 2, 3]))
      (NewClient (lit "user1")) (lit "https://im2.io/user1/fit") none (lit "")).trace =
      [lit "Warning: [199 - slow]\n"] :=
  have h := warning_header_independent
    (sampleWorld 7 (reply 200 [(lit "Warning", [lit "199 - slow"])] [1, 2, 3]))
    (sampleWorld 7 (reply 399 [] [1, 2, 3]))
    (NewClient (lit "user1")) (lit "https://im2.io/user1/fit") none (lit "")
    ⟨lit "POST", lit "https://im2.io/user1/fit", [], none⟩
    ⟨lit "POST", lit "https://im2.io/user1/fit", [], none⟩
    ⟨200, [(lit "Warning", [lit "199 - slow"])], ⟨[1, 2, 3], none⟩⟩
    ⟨399, [], ⟨[1, 2, 3], none⟩⟩ [1, 2, 3]
    (by decide) rfl (by decide) rfl (by decide) (by decide) rfl rfl
  ⟨h.1, h.2.1, h.2.2.1.trans h.1, (h.2.2.2.2.2 [lit "199 - slow"] (by decide)).trans (by decide)⟩

theorem Base_of_last (path name : GoString) (hname : name ≠ [])
    (hplain : ∀ b ∈ name, isPathSeparator b = false)
    (hpath : path = name ∨ ∃ dir, path = dir ++ lit "/" ++ name) :
    Base path = name := by
  obtain ⟨x, xs, hx⟩ : ∃ x xs, name.reverse = x :: xs := by
    cases h : name.reverse with
    | nil => exact absurd (List.reverse_eq_nil_iff.mp h) hname
    | cons x xs => exact ⟨x, xs, rfl⟩
  have hxp : isPathSeparator x = false :=
    hplain x (List.mem_reverse.mp (hx ▸ List.mem_cons_self x xs))
  have hrev : ∀ a ∈ name.reverse, (!isPathSeparator a) = true := by
    intro a ha
    rw [hplain a (List.mem_reverse.mp ha)]
    rfl
  have hsep : lit "/" = [47] := rfl
  rcases hpath with rfl | ⟨dir, rfl⟩
  · have hstrip : (path.reverse.dropWhile isPathSeparator).reverse = path := by
      rw [hx, List.dropWhile_cons_of_neg (by simp [hxp]), ← hx, List.reverse_reverse]
    have htake : (path.reverse.takeWhile (fun b => !isPathSeparator b)) = path.reverse :=
      List.takeWhile_eq_self_iff.mpr hrev
    simp only [Base, hname, if_false, hstrip, htake, List.reverse_reverse]
  · have hne : dir ++ lit "/" ++ name ≠ [] := by
      intro h
      exact hname (List.append_eq_nil.mp h).2
    have hr : (dir ++ lit "/" ++ name).reverse = name.reverse ++ (47 :: dir.reverse) := by
      simp [hsep]
    have hstrip : ((dir ++ lit "/" ++ name).reverse.dropWhile isPathSeparator).reverse =
        dir ++ lit "/" ++ name := by
      rw [hr, hx, List.cons_append, List.dropWhile_cons_of_neg (by simp [hxp]),
        ← List.cons_append, ← hx, ← hr, List.reverse_reverse]
    have htake : ((dir ++ lit "/" ++ name).reverse.takeWhile (fun b => !isPathSeparator b)) =
        name.reverse := by
      rw [hr, List.takeWhile_append_of_pos hrev,
        List.takeWhile_cons_of_neg (by simp [isPathSeparator]), List.append_nil]
    simp only [Base, hne, if_false, hstrip, htake, List.reverse_reverse, hname]

theorem Base_examples :
    Base (lit "") = lit "." ∧ Base (lit "/") = lit "/" ∧ Base (lit "a/b/") = lit "b" ∧
    Base (lit "/srv/img/cat.png") = lit "cat.png" ∧ Base (lit "cat.png") = lit "cat.png" := by
  decide

theorem escapeQuotes_example :
    escapeQuotes (lit "a\"b\\c.png") = lit "a\\\"b\\\\c.png" := by
  decide

theorem upload_body (world : World) (name : GoString) (C : Bytes) :
    ((((NewWriter world []).CreatePart
        [ (lit "Content-Disposition",
            Sprintf "form-data; name=\"%s\"; filename=\"%s\""
              [.string (world.quoteEscaper (lit "file")), .string (world.quoteEscaper name)]),
          (lit "Content-Type", lit "application/octet-stream") ]).Write C).Close).w =
      formBody world.quoteEscaper (randomBoundary world) [⟨lit "file", name, C⟩] := by
  simp [NewWriter, Writer.CreatePart, Writer.Write, Writer.Close, Sprintf, doPrintf, printArg,
    printExtra, lit, formBody, partBytes]

theorem upload_contentType (world : World) (name : GoString) (C : Bytes) :
    ((((NewWriter world []).CreatePart
        [ (lit "Content-Disposition",
            Sprintf "form-data; name=\"%s\"; filename=\"%s\""
              [.string (world.quoteEscaper (lit "file")), .string (world.quoteEscaper name)]),
          (lit "Content-Type", lit "application/octet-stream") ]).Write C).Close).FormDataContentType =
      lit "multipart/form-data; boundary=" ++ randomBoundary world :=
  FormDataContentType_eq world _ _

theorem contentType_ne_empty (b : GoString) :
    lit "multipart/form-data; boundary=" ++ b ≠ lit "" := by
  have h : lit "multipart/form-data; boundary=" = 109 :: lit "ultipart/form-data; boundary=" :=
    rfl
  rw [h]
  exact List.cons_ne_nil _ _

/-- A local upload whose file is read in full hands `processRequest` the local
URL, the one-part form as body and the content type with the drawn boundary. -/
theorem processLocalFile_read (world : World) (c : Client) (O : List Option) (P : GoString)
    (C : Bytes) (hopen : world.Open P = .ok ⟨C, none⟩) :
    processLocalFile world c O P =
      ⟨(processRequest world c (createURLForLocal c O)
          (some (formBody world.quoteEscaper (randomBoundary world) [⟨lit "file", Base P, C⟩]))
          (lit "multipart/form-data; boundary=" ++ randomBoundary world)).bytes,
        (processRequest world c (createURLForLocal c O)
          (some (formBody world.quoteEscaper (randomBoundary world) [⟨lit "file", Base P, C⟩]))
          (lit "multipart/form-data; boundary=" ++ randomBoundary world)).err,
        [.osOpen P] ++ (processRequest world c (createURLForLocal c O)
          (some (formBody world.quoteEscaper (randomBoundary world) [⟨lit "file", Base P, C⟩]))
          (lit "multipart/form-data; boundary=" ++ randomBoundary world)).trace ++
          [.fileClose P]⟩ := by
  simp only [processLocalFile, hopen, Writer.CreateFormFile, Copy, upload_body,
    upload_contentType]

theorem processLocalFile_failed (world : World) (c : Client) (O : List Option) (P : GoString)
    (h : ∀ C, world.Open P ≠ .ok ⟨C, none⟩) :
    constructed (processLocalFile world c O P).trace = [] ∧
      sent (processLocalFile world c O P).trace = [] := by
  unfold processLocalFile
  simp only [Writer.CreateFormFile, Copy]
  cases hopen : world.Open P with
  | error e => simp [constructed, sent]
  | ok file =>
    cases hf : file.err with
    | some e => simp [constructed, sent, hf]
    | none =>
      exfalso
      apply h file.data
      rw [hopen]
      cases file
      simp_all

theorem constructed_wrap (pre post : List Event) (t : List Event)
    (hpre : constructed pre = []) (hpost : constructed post = []) :
    constructed (pre ++ t ++ post) = constructed t := by
  simp only [constructed, List.filterMap_append] at *
  simp [hpre, hpost]

theorem sent_wrap (pre post : List Event) (t : List Event)
    (hpre : sent pre = []) (hpost : sent post = []) :
    sent (pre ++ t ++ post) = sent t := by
  simp only [sent, List.filterMap_append] at *
  simp [hpre, hpost]

theorem processRequest_sent_mem (world : World) (c : Client) (url : GoString)
    (body : Nilable Bytes) (ct : GoString) (req : Request)
    (h : req ∈ sent (processRequest world c url body ct).trace) :
    req = if ct ≠ lit "" then
        Request.HeaderSet ⟨lit "POST", url, [], body⟩ (lit "Content-Type") ct
      else ⟨lit "POST", url, [], body⟩ := by
  cases hv : world.urlError (lit "POST") url with
  | some e =>
    rw [processRequest_rejected _ _ _ _ _ e hv] at h
    simp [sent] at h
  | none =>
    rw [processRequest_sent _ _ _ _ _ hv, List.mem_singleton] at h
    exact h

/-- C9: for a local path whose file opens and is read in full with content `C`,
the body handed to the request is the wire form of a closed multipart form with
one part, the file part named `file` whose filename is the base name of the
path and whose content is `C`; the request that is sent carries that body and
the header `Content-Type: multipart/form-data; boundary=<the body's boundary>`. -/
theorem multipart_upload (world : World) (c : Client) (O : List Option) (P : GoString)
    (C : Bytes) (hopen : world.Open P = .ok ⟨C, none⟩) :
    constructed (processLocalFile world c O P).trace =
      [(lit "POST", createURLForLocal c O,
        some (formBody world.quoteEscaper (randomBoundary world) [⟨lit "file", Base P, C⟩]))] ∧
    (world.urlError (lit "POST") (createURLForLocal c O) = none →
      sent (processLocalFile world c O P).trace =
        [⟨lit "POST", createURLForLocal c O,
          [(lit "Content-Type", lit "multipart/form-data; boundary=" ++ randomBoundary world)],
          some (formBody world.quoteEscaper (randomBoundary world)
            [⟨lit "file", Base P, C⟩])⟩]) ∧
    (∀ dir name, P = dir ++ lit "/" ++ name → name ≠ [] →
      (∀ b ∈ name, isPathSeparator b = false) → Base P = name) ∧
    (P ≠ [] → (∀ b ∈ P, isPathSeparator b = false) → Base P = P) := by
  rw [processLocalFile_read world c O P C hopen]
  refine ⟨?_, ?_, ?_, ?_⟩
  · rw [constructed_wrap [.osOpen P] [.fileClose P] _ rfl rfl]
    exact processRequest_constructed _ _ _ _ _
  · intro hv
    rw [sent_wrap [.osOpen P] [.fileClose P] _ rfl rfl, processRequest_sent _ _ _ _ _ hv,
      if_pos (contentType_ne_empty _)]
    rfl
  · intro dir name hP hname hplain
    exact Base_of_last P name hname hplain (Or.inr ⟨dir, hP⟩)
  · intro hP hplain
    exact Base_of_last P P hP hplain (Or.inl rfl)

/-- C9, at the file `/srv/img/cat.png` with the four bytes `137 80 78 71`: the
filename of the part is `cat.png`. -/
theorem multipart_upload_witness :
    (sampleWorld 7 (reply 200 [] [1, 2, 3])).Open (lit "/srv/img/cat.png") =
      .ok ⟨[137, 80, 78, 71], none⟩ ∧
    sent (processLocalFile (sampleWorld 7 (reply 200 [] [1, 2, 3])) (NewClient (lit "user1"))
        [Fit] (lit "/srv/img/cat.png")).trace =
      [⟨lit "POST", lit "https://im2.io/user1/fit",
        [(lit "Content-Type",
          lit "multipart/form-data; boundary=070707070707070707070707070707070707070707070707070707070707")],
        some (lit "--070707070707070707070707070707070707070707070707070707070707\r\nContent-Disposition: form-data; name=\"file\"; filename=\"cat.png\"\r\nContent-Type: application/octet-stream\r\n\r\n" ++
          [137, 80, 78, 71] ++
          lit "\r\n--070707070707070707070707070707070707070707070707070707070707--\r\n")⟩] :=
  ⟨rfl,
    ((multipart_upload (sampleWorld 7 (reply 200 [] [1, 2, 3])) (NewClient (lit "user1")) [Fit]
      (lit "/srv/img/cat.png") [137, 80, 78, 71] rfl).2.1 (by decide)).trans (by decide)⟩

/-- C10 as stated fails: two calls with the same client, options, path and file
content, whose `multipart.NewWriter` draws different random bytes, construct
different request bodies. -/
theorem request_determinism_counterexample :
    (sampleWorld 7 (reply 200 [] [1, 2, 3])).Open (lit "/srv/img/cat.png") =
      (sampleWorld 8 (reply 200 [] [1, 2, 3])).Open (lit "/srv/img/cat.png") ∧
    (constructed (OptimizeImage (sampleWorld 7 (reply 200 [] [1, 2, 3]))
        (NewClient (lit "user1")) [Fit] (lit "/srv/img/cat.png")).trace).map (fun x => x.2.2) ≠
      (constructed (OptimizeImage (sampleWorld 8 (reply 200 [] [1, 2, 3]))
        (NewClient (lit "user1")) [Fit] (lit "/srv/img/cat.png")).trace).map (fun x => x.2.2) ∧
    ¬ ∀ (world₁ world₂ : World) (c : Client) (O : List Option) (s : GoString),
      world₁.Open s = world₂.Open s →
      constructed (OptimizeImage world₁ c O s).trace =
        constructed (OptimizeImage world₂ c O s).trace := by
  have h : (constructed (OptimizeImage (sampleWorld 7 (reply 200 [] [1, 2, 3]))
        (NewClient (lit "user1")) [Fit] (lit "/srv/img/cat.png")).trace).map (fun x => x.2.2) ≠
      (constructed (OptimizeImage (sampleWorld 8 (reply 200 [] [1, 2, 3]))
        (NewClient (lit "user1")) [Fit] (lit "/srv/img/cat.png")).trace).map (fun x => x.2.2) := by
    decide
  refine ⟨rfl, h, fun hall => h ?_⟩
  rw [hall (sampleWorld 7 (reply 200 [] [1, 2, 3])) (sampleWorld 8 (reply 200 [] [1, 2, 3]))
    (NewClient (lit "user1")) [Fit] (lit "/srv/img/cat.png") rfl]

theorem processLocalFile_constructed_mem (world : World) (c : Client) (O : List Option)
    (P : GoString) (x : GoString × GoString × Nilable Bytes)
    (hx : x ∈ constructed (processLocalFile world c O P).trace) :
    x.1 = lit "POST" ∧ x.2.1 = createURLForLocal c O := by
  by_cases h : ∃ C, world.Open P = .ok ⟨C, none⟩
  · obtain ⟨C, hC⟩ := h
    rw [processLocalFile_read world c O P C hC,
      constructed_wrap [.osOpen P] [.fileClose P] _ rfl rfl, processRequest_constructed,
      List.mem_singleton] at hx
    subst hx
    exact ⟨rfl, rfl⟩
  · rw [(processLocalFile_failed world c O P (fun C hC => h ⟨C, hC⟩)).1] at hx
    exact absurd hx (List.not_mem_nil _)

theorem local_requests_agree (world₁ world₂ : World) (c : Client) (O : List Option)
    (P : GoString) (hfile : world₁.Open P = world₂.Open P) (hrand : world₁.rand = world₂.rand)
    (hesc : world₁.quoteEscaper = world₂.quoteEscaper) :
    constructed (processLocalFile world₁ c O P).trace =
      constructed (processLocalFile world₂ c O P).trace ∧
    ∀ r₁ ∈ sent (processLocalFile world₁ c O P).trace,
      ∀ r₂ ∈ sent (processLocalFile world₂ c O P).trace, r₁ = r₂ := by
  have hb : randomBoundary world₁ = randomBoundary world₂ := by
    simp [randomBoundary, hrand]
  by_cases h : ∃ C, world₁.Open P = .ok ⟨C, none⟩
  · obtain ⟨C, hC⟩ := h
    rw [processLocalFile_read world₁ c O P C hC,
      processLocalFile_read world₂ c O P C (hfile ▸ hC),
      constructed_wrap [.osOpen P] [.fileClose P] _ rfl rfl,
      constructed_wrap [.osOpen P] [.fileClose P] _ rfl rfl,
      sent_wrap [.osOpen P] [.fileClose P] _ rfl rfl,
      sent_wrap [.osOpen P] [.fileClose P] _ rfl rfl,
      processRequest_constructed, processRequest_constructed, hb, hesc]
    refine ⟨rfl, fun r₁ h₁ r₂ h₂ => ?_⟩
    rw [processRequest_sent_mem _ _ _ _ _ _ h₁, processRequest_sent_mem _ _ _ _ _ _ h₂]
  · have h₁ := processLocalFile_failed world₁ c O P (fun C hC => h ⟨C, hC⟩)
    have h₂ := processLocalFile_failed world₂ c O P (fun C hC => h ⟨C, hfile ▸ hC⟩)
    rw [h₁.1, h₂.1, h₁.2]
    exact ⟨rfl, fun r₁ hr₁ => absurd hr₁ (List.not_mem_nil _)⟩

/-- C10 (as amended): whatever else differs between two calls with the same
client, options and source, every request they construct has the same method
and URL; in remote-URL mode the whole request is the same; in local-file mode
the body and the Content-Type are the same when the file content is the same
and `multipart.NewWriter` draws the same random boundary (both calls being
made with the same Go library); it draws the boundary anew for every call. -/
theorem request_determinism (world₁ world₂ : World) (c : Client) (O : List Option)
    (s : GoString) :
    (∀ x₁ ∈ constructed (OptimizeImage world₁ c O s).trace,
      ∀ x₂ ∈ constructed (OptimizeImage world₂ c O s).trace,
        x₁.1 = x₂.1 ∧ x₁.2.1 = x₂.2.1) ∧
    ((lit "http://" <+: s ∨ lit "https://" <+: s) →
      constructed (OptimizeImage world₁ c O s).trace =
        constructed (OptimizeImage world₂ c O s).trace ∧
      ∀ r₁ ∈ sent (OptimizeImage world₁ c O s).trace,
        ∀ r₂ ∈ sent (OptimizeImage world₂ c O s).trace, r₁ = r₂) ∧
    (world₁.Open s = world₂.Open s → world₁.rand = world₂.rand →
      world₁.quoteEscaper = world₂.quoteEscaper →
      constructed (OptimizeImage world₁ c O s).trace =
        constructed (OptimizeImage world₂ c O s).trace ∧
      ∀ r₁ ∈ sent (OptimizeImage world₁ c O s).trace,
        ∀ r₂ ∈ sent (OptimizeImage world₂ c O s).trace, r₁ = r₂) := by
  have hremote : (lit "http://" <+: s ∨ lit "https://" <+: s) →
      constructed (OptimizeImage world₁ c O s).trace =
        constructed (OptimizeImage world₂ c O s).trace ∧
      ∀ r₁ ∈ sent (OptimizeImage world₁ c O s).trace,
        ∀ r₂ ∈ sent (OptimizeImage world₂ c O s).trace, r₁ = r₂ := by
    intro h
    rw [OptimizeImage_remote world₁ c O s h, OptimizeImage_remote world₂ c O s h,
      processRequest_constructed, processRequest_constructed]
    refine ⟨rfl, fun r₁ h₁ r₂ h₂ => ?_⟩
    rw [processRequest_sent_mem _ _ _ _ _ _ h₁, processRequest_sent_mem _ _ _ _ _ _ h₂]
  refine ⟨?_, hremote, ?_⟩
  · intro x₁ h₁ x₂ h₂
    by_cases h : lit "http://" <+: s ∨ lit "https://" <+: s
    · rw [OptimizeImage_remote world₁ c O s h, processRequest_constructed,
        List.mem_singleton] at h₁
      rw [OptimizeImage_remote world₂ c O s h, processRequest_constructed,
        List.mem_singleton] at h₂
      subst h₁
      subst h₂
      exact ⟨rfl, rfl⟩
    · rw [OptimizeImage_local world₁ c O s h] at h₁
      rw [OptimizeImage_local world₂ c O s h] at h₂
      have e₁ := processLocalFile_constructed_mem world₁ c O s x₁ h₁
      have e₂ := processLocalFile_constructed_mem world₂ c O s x₂ h₂
      exact ⟨e₁.1.trans e₂.1.symm, e₁.2.trans e₂.2.symm⟩
  · intro hfile hrand hesc
    by_cases h : lit "http://" <+: s ∨ lit "https://" <+: s
    · exact hremote h
    · rw [OptimizeImage_local world₁ c O s h, OptimizeImage_local world₂ c O s h]
      exact local_requests_agree world₁ world₂ c O s hfile hrand hesc

end ImageOptim
